import Mathlib

/-!
# TraderX signal-detection core: a shallow embedding

This file embeds the core of the TraderX server (session-based breakout
detection) in Lean and proves the specification's claims about it.

Source files embedded:
* `app/services/tick_data_service.py` — tick deduplication (`_should_store_tick`).
* `app/services/signal_detection_service.py` (V1) — breakout decision table
  (`_check_breakout_conditions`), target/stop-loss math
  (`_calculate_stop_loss_and_targets`), price fallback chain
  (`_get_current_price`), candle aggregation (`_get_5min_candle_data`),
  signal generation and duplicate prevention (`_generate_signal`,
  `_save_signal_to_db`), session state machine (`_check_sessions`).
* `app/services/signal_detection_service_v2.py` (V2) — database-backed
  variants (`_check_session_breakouts`, `_process_session_realtime`,
  `_generate_breakout_signal`, `_save_signal_to_db`).

Python floats are modelled as rationals; `round(x, 2)` is modelled as
round-half-to-even at two decimal places, the rounding Python's `round`
implements.
-/

namespace TraderX

/-! ## Python-style rounding to two decimal places -/

/-- Round a rational to the nearest integer, ties to even
(the rounding mode of Python's built-in `round`). -/
def roundHalfEven (q : ℚ) : ℤ :=
  let f : ℤ := ⌊q⌋
  let r : ℚ := q - f
  if r < 1/2 then f
  else if r > 1/2 then f + 1
  else if f % 2 = 0 then f else f + 1

/-- Python's `round(x, 2)`: round to the grid of hundredths, ties to even. -/
def round2 (q : ℚ) : ℚ := (roundHalfEven (100 * q) : ℚ) / 100

/-- A value lies on the two-decimal-place grid. -/
def OnGrid2 (q : ℚ) : Prop := ∃ m : ℤ, q = (m : ℚ) / 100

theorem abs_roundHalfEven_sub (q : ℚ) : |(roundHalfEven q : ℚ) - q| ≤ 1/2 := by
  have h0 : ((⌊q⌋ : ℤ) : ℚ) ≤ q := Int.floor_le q
  have h1 : q < (⌊q⌋ : ℚ) + 1 := Int.lt_floor_add_one q
  unfold roundHalfEven
  dsimp only
  split_ifs with ha hb hc <;> rw [abs_le] <;> constructor <;> push_cast <;> linarith

theorem abs_round2_sub (q : ℚ) : |round2 q - q| ≤ 1/200 := by
  have h := abs_roundHalfEven_sub (100 * q)
  have heq : round2 q - q = ((roundHalfEven (100 * q) : ℚ) - 100 * q) / 100 := by
    unfold round2; ring
  rw [heq, abs_div]
  have h100 : |(100 : ℚ)| = 100 := by norm_num
  rw [h100]
  linarith

theorem round2_onGrid (q : ℚ) : OnGrid2 (round2 q) := ⟨roundHalfEven (100 * q), rfl⟩

/-! ## Tick deduplication (`TickDataService._should_store_tick`)

`_should_store_tick(symbol, price, timestamp)` consults
`self.last_tick_cache[symbol]` (the last *stored* tick) and rejects the
incoming tick if the absolute price change is below `min_price_change`
(0.5), else if the elapsed time is below `min_time_interval` (0.5 s),
else if the price equals the cached price; otherwise it updates the
cache and accepts. We model time as seconds (a rational). -/

/-- `self.min_price_change = 0.5`. -/
def minPriceChange : ℚ := 1/2

/-- `self.min_time_interval = 0.5` (seconds). -/
def minTimeInterval : ℚ := 1/2

/-- One entry of `self.last_tick_cache`: the price and timestamp of the
last stored tick for a symbol. -/
structure LastTick where
  price : ℚ
  time : ℚ
deriving DecidableEq

/-- `_should_store_tick` for one symbol: given the cache entry for the
symbol (if any) and the incoming tick's price and timestamp, return
whether the tick is stored together with the updated cache entry. -/
def shouldStoreTick (cache : Option LastTick) (price time : ℚ) :
    Bool × Option LastTick :=
  match cache with
  | some last =>
      if |price - last.price| < minPriceChange then (false, some last)
      else if time - last.time < minTimeInterval then (false, some last)
      else if price = last.price then (false, some last)
      else (true, some ⟨price, time⟩)
  | none => (true, some ⟨price, time⟩)

/-- Run the deduplication filter over a stream of (price, time) ticks for
one symbol, returning the ticks that are stored. -/
def processTicks : Option LastTick → List (ℚ × ℚ) → List (ℚ × ℚ)
  | _, [] => []
  | cache, (p, t) :: rest =>
      let r := shouldStoreTick cache p t
      if r.1 then (p, t) :: processTicks r.2 rest
      else processTicks r.2 rest

/-- The cache entry viewed as a (price, time) pair, for chaining. -/
def cacheList : Option LastTick → List (ℚ × ℚ)
  | none => []
  | some l => [(l.price, l.time)]

/-- Relation between two consecutively stored ticks: the later one moved
by at least the price threshold, arrived at least the time threshold
later, and has a different price. -/
def TickGap (a b : ℚ × ℚ) : Prop :=
  minPriceChange ≤ |b.1 - a.1| ∧ minTimeInterval ≤ b.2 - a.2 ∧ b.1 ≠ a.1

theorem shouldStoreTick_true_gap (last : LastTick) (p t : ℚ)
    (h : (shouldStoreTick (some last) p t).1 = true) :
    TickGap (last.price, last.time) (p, t) := by
  simp only [shouldStoreTick] at h
  split_ifs at h with h1 h2 h3
  · exact ⟨not_lt.mp h1, not_lt.mp h2, h3⟩

theorem processTicks_chain (ticks : List (ℚ × ℚ)) :
    ∀ cache : Option LastTick,
      List.Chain' TickGap (cacheList cache ++ processTicks cache ticks) := by
  induction ticks with
  | nil =>
      intro cache
      cases cache <;> simp [processTicks, cacheList]
  | cons pt rest ih =>
      intro cache
      obtain ⟨p, t⟩ := pt
      cases cache with
      | none =>
          have : shouldStoreTick none p t = (true, some ⟨p, t⟩) := rfl
          simpa [processTicks, this, cacheList] using ih (some ⟨p, t⟩)
      | some last =>
          by_cases hs : (shouldStoreTick (some last) p t).1 = true
          · have hsnd : (shouldStoreTick (some last) p t).2 = some ⟨p, t⟩ := by
              simp only [shouldStoreTick] at hs ⊢
              split_ifs at hs ⊢ <;> simp_all
            have hgap := shouldStoreTick_true_gap last p t hs
            have htail := ih (some ⟨p, t⟩)
            simp only [cacheList] at htail ⊢
            simp only [processTicks, hs, hsnd, if_true]
            exact List.chain'_cons.mpr ⟨hgap, htail⟩
          · have hsnd : (shouldStoreTick (some last) p t).2 = some last := by
              simp only [shouldStoreTick] at hs ⊢
              split_ifs at hs ⊢ <;> simp_all
            have htail := ih (some last)
            simp only [Bool.not_eq_true] at hs
            simp only [processTicks, hs, hsnd, if_false]
            simpa [cacheList] using htail

/-! ## Breakout decision logic

V1 `SignalDetectionService._check_breakout_conditions` (the decision core,
after session levels and both prices have been obtained): four boolean
breakout conditions feed an if/elif chain producing a signal type or
nothing.

V2 `SignalDetectionServiceV2._check_session_breakouts` classifies from the
NIFTY index price against the index session levels alone; the futures
price is required to be available (the check returns early without it)
but is not consulted by the classification. -/

/-- `app/models/signal.py` `SignalType`. -/
inductive SignalType
  | BUY_CALL
  | BUY_PUT
deriving DecidableEq, Repr

/-- V1 `_check_breakout_conditions` decision core: arguments are the
current index price, current futures price, and the two instruments'
session highs and lows. -/
def checkBreakoutConditions (niftyIndexPrice niftyFuturesPrice
    indexSessionHigh indexSessionLow futuresSessionHigh futuresSessionLow : ℚ) :
    Option SignalType :=
  let indexBreaksHigh := niftyIndexPrice > indexSessionHigh
  let indexBreaksLow := niftyIndexPrice < indexSessionLow
  let futuresBreaksHigh := niftyFuturesPrice > futuresSessionHigh
  let futuresBreaksLow := niftyFuturesPrice < futuresSessionLow
  if indexBreaksHigh ∧ futuresBreaksHigh then some .BUY_CALL
  else if indexBreaksLow ∧ futuresBreaksLow then some .BUY_PUT
  else if (indexBreaksHigh ∧ ¬futuresBreaksHigh) ∨ (futuresBreaksHigh ∧ ¬indexBreaksHigh) then
    some .BUY_PUT
  else if (indexBreaksLow ∧ ¬futuresBreaksLow) ∨ (futuresBreaksLow ∧ ¬indexBreaksLow) then
    some .BUY_CALL
  else none

/-- V2 `_check_session_breakouts` decision core: `futuresPrice` must be
available for the check to run but does not enter the classification. -/
def checkSessionBreakoutsV2 (niftyPrice futuresPrice sessionHigh sessionLow : ℚ) :
    Option SignalType :=
  if niftyPrice > sessionHigh then some .BUY_CALL
  else if niftyPrice < sessionLow then some .BUY_PUT
  else none

/-! ## Stop-loss and target computation

`_calculate_stop_loss_and_targets` (textually the same computation in V1
and V2): guard on Python truthiness of the three inputs (`None` or `0`
yields `(None, None, None)`), then
`target_1_amount = round(session_range / 2, 2)`,
`target_2_amount = round(session_range, 2)`, and per direction the
targets `round(entry ∓ amount, 2)` with stop-loss
`round(session_high, 2)` (PUT) or `round(session_low, 2)` (CALL).
The result triple is `(stop_loss, target_1, target_2)`. -/

def calculateStopLossAndTargets (signalType : SignalType)
    (sessionHigh sessionLow entryPrice : Option ℚ) : Option (ℚ × ℚ × ℚ) :=
  match sessionHigh, sessionLow, entryPrice with
  | some high, some low, some entry =>
      if high = 0 ∨ low = 0 ∨ entry = 0 then none
      else
        let sessionRange := high - low
        let target1Amount := round2 (sessionRange / 2)
        let target2Amount := round2 sessionRange
        match signalType with
        | .BUY_PUT =>
            some (round2 high, round2 (entry - target1Amount), round2 (entry - target2Amount))
        | .BUY_CALL =>
            some (round2 low, round2 (entry + target1Amount), round2 (entry + target2Amount))
  | _, _, _ => none

theorem abs_round2_add_round2_sub (e r : ℚ) :
    |round2 (e + round2 r) - (e + r)| ≤ 1/100 := by
  have h1 := abs_round2_sub (e + round2 r)
  have h2 := abs_round2_sub r
  have heq : round2 (e + round2 r) - (e + r) =
      (round2 (e + round2 r) - (e + round2 r)) + (round2 r - r) := by ring
  calc |round2 (e + round2 r) - (e + r)|
      = |(round2 (e + round2 r) - (e + round2 r)) + (round2 r - r)| := by rw [heq]
    _ ≤ |round2 (e + round2 r) - (e + round2 r)| + |round2 r - r| := abs_add _ _
    _ ≤ 1/100 := by linarith

theorem abs_round2_sub_round2_sub (e r : ℚ) :
    |round2 (e - round2 r) - (e - r)| ≤ 1/100 := by
  have h1 := abs_round2_sub (e - round2 r)
  have h2 := abs_round2_sub r
  have heq : round2 (e - round2 r) - (e - r) =
      (round2 (e - round2 r) - (e - round2 r)) + (r - round2 r) := by ring
  have h2' : |r - round2 r| ≤ 1/200 := by rw [abs_sub_comm]; exact h2
  calc |round2 (e - round2 r) - (e - r)|
      = |(round2 (e - round2 r) - (e - round2 r)) + (r - round2 r)| := by rw [heq]
    _ ≤ |round2 (e - round2 r) - (e - round2 r)| + |r - round2 r| := abs_add _ _
    _ ≤ 1/100 := by linarith

theorem checkBreakout_bothHigh (ip fp ih il fh fl : ℚ) (h1 : ip > ih) (h2 : fp > fh) :
    checkBreakoutConditions ip fp ih il fh fl = some .BUY_CALL := by
  unfold checkBreakoutConditions
  dsimp only
  rw [if_pos ⟨h1, h2⟩]

theorem checkBreakout_bothLow (ip fp ih il fh fl : ℚ) (hi : il ≤ ih)
    (h1 : ip < il) (h2 : fp < fl) :
    checkBreakoutConditions ip fp ih il fh fl = some .BUY_PUT := by
  unfold checkBreakoutConditions
  dsimp only
  rw [if_neg (by rintro ⟨a, -⟩; linarith), if_pos ⟨h1, h2⟩]

theorem checkBreakout_oneHigh (ip fp ih il fh fl : ℚ) (hi : il ≤ ih) (hf : fl ≤ fh)
    (h : (ip > ih ∧ ¬fp > fh) ∨ (fp > fh ∧ ¬ip > ih)) :
    checkBreakoutConditions ip fp ih il fh fl = some .BUY_PUT := by
  unfold checkBreakoutConditions
  dsimp only
  rcases h with ⟨ha, hb⟩ | ⟨ha, hb⟩
  · rw [if_neg (by rintro ⟨-, b⟩; exact hb b), if_neg (by rintro ⟨x, -⟩; linarith),
      if_pos (Or.inl ⟨ha, hb⟩)]
  · rw [if_neg (by rintro ⟨a, -⟩; exact hb a), if_neg (by rintro ⟨-, y⟩; linarith),
      if_pos (Or.inr ⟨ha, hb⟩)]

theorem checkBreakout_oneLow (ip fp ih il fh fl : ℚ) (hi : il ≤ ih) (hf : fl ≤ fh)
    (h : (ip < il ∧ ¬fp < fl) ∨ (fp < fl ∧ ¬ip < il))
    (hn : ¬((ip > ih ∧ ¬fp > fh) ∨ (fp > fh ∧ ¬ip > ih))) :
    checkBreakoutConditions ip fp ih il fh fl = some .BUY_CALL := by
  unfold checkBreakoutConditions
  dsimp only
  rcases h with ⟨ha, hb⟩ | ⟨ha, hb⟩
  · rw [if_neg (by rintro ⟨a, -⟩; linarith), if_neg (by rintro ⟨-, b⟩; exact hb b),
      if_neg hn, if_pos (Or.inl ⟨ha, hb⟩)]
  · rw [if_neg (by rintro ⟨-, b⟩; linarith), if_neg (by rintro ⟨a, -⟩; exact hb a),
      if_neg hn, if_pos (Or.inr ⟨ha, hb⟩)]

theorem checkBreakout_none (ip fp ih il fh fl : ℚ)
    (ha : ¬ip > ih) (hb : ¬ip < il) (hc : ¬fp > fh) (hd : ¬fp < fl) :
    checkBreakoutConditions ip fp ih il fh fl = none := by
  unfold checkBreakoutConditions
  dsimp only
  rw [if_neg (by rintro ⟨a, -⟩; exact ha a), if_neg (by rintro ⟨b, -⟩; exact hb b),
    if_neg (by rintro (⟨a, -⟩ | ⟨c, -⟩); exacts [ha a, hc c]),
    if_neg (by rintro (⟨b, -⟩ | ⟨d, -⟩); exacts [hb b, hd d])]

/-- **C1** (counterexample): at index price 105 with index session high 100
and low 90, futures price 95 with futures session high 100, exactly one of
the two instruments (the index) is above its session high, yet the V2
breakout evaluator `_check_session_breakouts` proposes BUY_CALL — the
claim demands BUY_PUT ("never BUY_CALL") in this situation. -/
theorem C1_counterexample :
    ((105 : ℚ) > 100 ∧ ¬((95 : ℚ) > 100)) ∧
      checkSessionBreakoutsV2 105 95 100 90 = some SignalType.BUY_CALL := by
  decide

/-- **C1** (amended): the V1 evaluator `_check_breakout_conditions` follows
the five-outcome table with the divergent-high rule taking precedence: a
lone break above a session high yields BUY_PUT; a lone break below a
session low yields BUY_CALL only when no lone high-break is present; both
above yields BUY_CALL, both below yields BUY_PUT, and no break yields no
signal. The V2 evaluator `_check_session_breakouts` instead classifies
from the index alone: index above its session high yields BUY_CALL, index
below its session low yields BUY_PUT, otherwise no signal, regardless of
the futures instrument. -/
theorem C1_amended (ip fp ih il fh fl : ℚ) (hi : il ≤ ih) (hf : fl ≤ fh) :
    ((ip > ih ∧ fp > fh → checkBreakoutConditions ip fp ih il fh fl = some .BUY_CALL) ∧
     (ip < il ∧ fp < fl → checkBreakoutConditions ip fp ih il fh fl = some .BUY_PUT) ∧
     ((ip > ih ∧ ¬fp > fh) ∨ (fp > fh ∧ ¬ip > ih) →
        checkBreakoutConditions ip fp ih il fh fl = some .BUY_PUT) ∧
     ((ip < il ∧ ¬fp < fl) ∨ (fp < fl ∧ ¬ip < il) →
        ¬((ip > ih ∧ ¬fp > fh) ∨ (fp > fh ∧ ¬ip > ih)) →
        checkBreakoutConditions ip fp ih il fh fl = some .BUY_CALL) ∧
     (¬ip > ih → ¬ip < il → ¬fp > fh → ¬fp < fl →
        checkBreakoutConditions ip fp ih il fh fl = none)) ∧
    ((ip > ih → checkSessionBreakoutsV2 ip fp ih il = some .BUY_CALL) ∧
     (ip < il → checkSessionBreakoutsV2 ip fp ih il = some .BUY_PUT) ∧
     (¬ip > ih → ¬ip < il → checkSessionBreakoutsV2 ip fp ih il = none)) := by
  refine ⟨⟨fun h => checkBreakout_bothHigh ip fp ih il fh fl h.1 h.2,
      fun h => checkBreakout_bothLow ip fp ih il fh fl hi h.1 h.2,
      checkBreakout_oneHigh ip fp ih il fh fl hi hf,
      checkBreakout_oneLow ip fp ih il fh fl hi hf,
      checkBreakout_none ip fp ih il fh fl⟩, ?_, ?_, ?_⟩
  · intro h
    unfold checkSessionBreakoutsV2
    rw [if_pos h]
  · intro h
    unfold checkSessionBreakoutsV2
    rw [if_neg (by linarith), if_pos h]
  · intro ha hb
    unfold checkSessionBreakoutsV2
    rw [if_neg ha, if_neg hb]

/-- Witness for C1: the amended characterization evaluated at a concrete
input (index 105 vs 100/90, futures 106 vs 101/91). -/
theorem C1_witness :
    (((105 : ℚ) > 100 ∧ (106 : ℚ) > 101 →
        checkBreakoutConditions 105 106 100 90 101 91 = some .BUY_CALL) ∧
     ((105 : ℚ) < 90 ∧ (106 : ℚ) < 91 →
        checkBreakoutConditions 105 106 100 90 101 91 = some .BUY_PUT) ∧
     (((105 : ℚ) > 100 ∧ ¬(106 : ℚ) > 101) ∨ ((106 : ℚ) > 101 ∧ ¬(105 : ℚ) > 100) →
        checkBreakoutConditions 105 106 100 90 101 91 = some .BUY_PUT) ∧
     (((105 : ℚ) < 90 ∧ ¬(106 : ℚ) < 91) ∨ ((106 : ℚ) < 91 ∧ ¬(105 : ℚ) < 90) →
        ¬(((105 : ℚ) > 100 ∧ ¬(106 : ℚ) > 101) ∨ ((106 : ℚ) > 101 ∧ ¬(105 : ℚ) > 100)) →
        checkBreakoutConditions 105 106 100 90 101 91 = some .BUY_CALL) ∧
     (¬(105 : ℚ) > 100 → ¬(105 : ℚ) < 90 → ¬(106 : ℚ) > 101 → ¬(106 : ℚ) < 91 →
        checkBreakoutConditions 105 106 100 90 101 91 = none)) ∧
    (((105 : ℚ) > 100 → checkSessionBreakoutsV2 105 106 100 90 = some .BUY_CALL) ∧
     ((105 : ℚ) < 90 → checkSessionBreakoutsV2 105 106 100 90 = some .BUY_PUT) ∧
     (¬(105 : ℚ) > 100 → ¬(105 : ℚ) < 90 → checkSessionBreakoutsV2 105 106 100 90 = none)) :=
  C1_amended 105 106 100 90 101 91 (by norm_num) (by norm_num)

/-- **C3**: for non-null (and nonzero) session high, low and entry, a
BUY_CALL computation returns stop-loss `round2 low` and targets on the
two-decimal grid within 1/100 of `entry + R/2` and `entry + R`; a BUY_PUT
computation returns stop-loss `round2 high` and targets within 1/100 of
`entry − R/2` and `entry − R`; and the concrete scenario high=100,
low=90, entry=105 with BUY_CALL yields stop 90, target₁ 110, target₂ 115. -/
theorem C3 (high low entry : ℚ) (hh : high ≠ 0) (hl : low ≠ 0) (he : entry ≠ 0) :
    (∃ t1 t2,
      calculateStopLossAndTargets .BUY_CALL (some high) (some low) (some entry) =
        some (round2 low, t1, t2) ∧
      OnGrid2 t1 ∧ OnGrid2 t2 ∧
      |t1 - (entry + (high - low) / 2)| ≤ 1/100 ∧
      |t2 - (entry + (high - low))| ≤ 1/100) ∧
    (∃ t1 t2,
      calculateStopLossAndTargets .BUY_PUT (some high) (some low) (some entry) =
        some (round2 high, t1, t2) ∧
      OnGrid2 t1 ∧ OnGrid2 t2 ∧
      |t1 - (entry - (high - low) / 2)| ≤ 1/100 ∧
      |t2 - (entry - (high - low))| ≤ 1/100) ∧
    calculateStopLossAndTargets .BUY_CALL (some 100) (some 90) (some 105) =
      some (90, 110, 115) := by
  have hg : ¬(high = 0 ∨ low = 0 ∨ entry = 0) := by tauto
  refine ⟨⟨round2 (entry + round2 ((high - low) / 2)), round2 (entry + round2 (high - low)),
      ?_, round2_onGrid _, round2_onGrid _,
      abs_round2_add_round2_sub entry ((high - low) / 2),
      abs_round2_add_round2_sub entry (high - low)⟩,
    ⟨round2 (entry - round2 ((high - low) / 2)), round2 (entry - round2 (high - low)),
      ?_, round2_onGrid _, round2_onGrid _,
      abs_round2_sub_round2_sub entry ((high - low) / 2),
      abs_round2_sub_round2_sub entry (high - low)⟩, ?_⟩
  · unfold calculateStopLossAndTargets
    dsimp only
    rw [if_neg hg]
  · unfold calculateStopLossAndTargets
    dsimp only
    rw [if_neg hg]
  · norm_num [calculateStopLossAndTargets, round2, roundHalfEven]

/-- Witness for C3 at high=100, low=90, entry=105. -/
theorem C3_witness :
    (∃ t1 t2,
      calculateStopLossAndTargets .BUY_CALL (some 100) (some 90) (some 105) =
        some (round2 90, t1, t2) ∧
      OnGrid2 t1 ∧ OnGrid2 t2 ∧
      |t1 - ((105 : ℚ) + (100 - 90) / 2)| ≤ 1/100 ∧
      |t2 - ((105 : ℚ) + (100 - 90))| ≤ 1/100) ∧
    (∃ t1 t2,
      calculateStopLossAndTargets .BUY_PUT (some 100) (some 90) (some 105) =
        some (round2 100, t1, t2) ∧
      OnGrid2 t1 ∧ OnGrid2 t2 ∧
      |t1 - ((105 : ℚ) - (100 - 90) / 2)| ≤ 1/100 ∧
      |t2 - ((105 : ℚ) - (100 - 90))| ≤ 1/100) ∧
    calculateStopLossAndTargets .BUY_CALL (some 100) (some 90) (some 105) =
      some (90, 110, 115) :=
  C3 100 90 105 (by norm_num) (by norm_num) (by norm_num)

/-- **C9**: whenever the BUY_CALL target computation returns values, the
target ladder has equal increments up to the two-decimal rounding
tolerance: `|(target₂ − target₁) − (target₁ − entry)| ≤ 3/100`. -/
theorem C9 (high low entry s t1 t2 : ℚ)
    (h : calculateStopLossAndTargets .BUY_CALL (some high) (some low) (some entry) =
      some (s, t1, t2)) :
    |(t2 - t1) - (t1 - entry)| ≤ 3/100 := by
  unfold calculateStopLossAndTargets at h
  dsimp only at h
  by_cases hg : high = 0 ∨ low = 0 ∨ entry = 0
  · rw [if_pos hg] at h
    exact absurd h (by simp)
  · rw [if_neg hg] at h
    simp only [Option.some.injEq, Prod.mk.injEq] at h
    obtain ⟨-, ht1, ht2⟩ := h
    subst ht1; subst ht2
    have h1 := abs_round2_add_round2_sub entry ((high - low) / 2)
    have h2 := abs_round2_add_round2_sub entry (high - low)
    set a := round2 (entry + round2 ((high - low) / 2)) with ha
    set b := round2 (entry + round2 (high - low)) with hb
    have heq : (b - a) - (a - entry) =
        (b - (entry + (high - low))) - 2 * (a - (entry + (high - low) / 2)) := by ring
    rw [heq]
    have htri := abs_sub (b - (entry + (high - low))) (2 * (a - (entry + (high - low) / 2)))
    have h2a : |2 * (a - (entry + (high - low) / 2))| =
        2 * |a - (entry + (high - low) / 2)| := by
      rw [abs_mul]; norm_num
    linarith

/-- Witness for C9 at high=100, low=90, entry=105 (targets 110, 115). -/
theorem C9_witness : |((115 : ℚ) - 110) - (110 - 105)| ≤ 3/100 :=
  C9 100 90 105 90 110 115 (by norm_num [calculateStopLossAndTargets, round2, roundHalfEven])

/-- **C5** (counterexample): previous stored tick at price 100, an
incoming tick at price 100.3 ten seconds later. The claim's conjunction
(price change below threshold AND elapsed time below threshold AND price
identical) is false — its second and third conjuncts fail — so the claim
says the tick is stored; the code rejects it on the price-change check
alone. -/
theorem C5_counterexample :
    (shouldStoreTick (some ⟨100, 0⟩) (1003/10) 10).1 = false ∧
    ¬(|(1003/10 : ℚ) - 100| < minPriceChange ∧ (10 : ℚ) - 0 < minTimeInterval ∧
      (1003/10 : ℚ) = 100) := by
  constructor
  · simp only [shouldStoreTick]
    rw [if_pos (by norm_num [minPriceChange, abs_lt])]
  · norm_num [minPriceChange, minTimeInterval]

/-- **C5** (amended): an arriving tick with an immediately-preceding stored
tick is rejected exactly when its price change is below the price
threshold OR the elapsed time is below the time threshold OR its price is
identical to the preceding price (a disjunction, not a conjunction). -/
theorem C5_amended (last : LastTick) (p t : ℚ) :
    (shouldStoreTick (some last) p t).1 = false ↔
      (|p - last.price| < minPriceChange ∨ t - last.time < minTimeInterval ∨
        p = last.price) := by
  simp only [shouldStoreTick]
  split_ifs with h1 h2 h3 <;> simp_all

/-- **C10**: a tick accepted while a previous tick is cached moved by at
least 0.5 in price, arrived at least 0.5 s later, and differs in price;
consequently the stored stream (with the cached tick, if any, prepended)
is a chain under `TickGap`: any two consecutively stored ticks of a
symbol differ by at least the thresholds. -/
theorem C10 (cache : Option LastTick) (ticks : List (ℚ × ℚ)) (last : LastTick) (p t : ℚ)
    (hstore : (shouldStoreTick (some last) p t).1 = true) :
    (minPriceChange ≤ |p - last.price| ∧ minTimeInterval ≤ t - last.time ∧
      p ≠ last.price) ∧
    List.Chain' TickGap (cacheList cache ++ processTicks cache ticks) :=
  ⟨shouldStoreTick_true_gap last p t hstore, processTicks_chain ticks cache⟩

/-- Witness for C10: concrete accepted tick (100 → 101 after 5 s) and a
concrete two-tick stream. -/
theorem C10_witness :
    (minPriceChange ≤ |(101 : ℚ) - 100| ∧ minTimeInterval ≤ (5 : ℚ) - 0 ∧
      (101 : ℚ) ≠ 100) ∧
    List.Chain' TickGap (cacheList none ++ processTicks none [(100, 0), (101, 1)]) :=
  C10 none [(100, 0), (101, 1)] ⟨100, 0⟩ 101 5 (by
    simp only [shouldStoreTick]
    rw [if_neg (by norm_num [minPriceChange, abs_lt]), if_neg (by norm_num [minTimeInterval]),
      if_neg (by norm_num)])

/-! ## Persisting a signal (`_save_signal_to_db`)

V1 inserts and, on an exception, swallows it exactly when the message
contains `"duplicate key error"` (case-insensitively) or `"E11000"`;
any other exception is re-raised. V2 catches and logs *every* exception;
nothing propagates. Python's `pat in text` for a nonempty pattern and
`str.lower()` are modelled over character lists. -/

/-- Python `pat in text` on character lists (structural, for nonempty
and empty patterns alike). -/
def occursIn (pat : List Char) : List Char → Bool
  | [] => pat.isEmpty
  | c :: rest => pat.isPrefixOf (c :: rest) || occursIn pat rest

/-- Python `str.lower()` on character lists. -/
def lowerChars (l : List Char) : List Char := l.map Char.toLower

/-- V1's duplicate-key test:
`"duplicate key error" in str(e).lower() or "E11000" in str(e)`. -/
def isDuplicateKeyError (msg : List Char) : Bool :=
  occursIn "duplicate key error".data (lowerChars msg) || occursIn "E11000".data msg

/-- Outcome of the underlying `insert_one` call: success, or an exception
with its message. -/
inductive InsertResult
  | ok
  | err (msg : List Char)
deriving DecidableEq

/-- V1 `_save_signal_to_db`: a duplicate-key failure is swallowed (the
call returns normally); any other failure is re-raised. -/
def saveSignalToDb (insert : InsertResult) : Except (List Char) Unit :=
  match insert with
  | .ok => .ok ()
  | .err msg => if isDuplicateKeyError msg then .ok () else .error msg

/-- V2 `_save_signal_to_db`: the whole body is wrapped in
`try/except Exception`, which only logs — every failure is swallowed. -/
def saveSignalToDbV2 (insert : InsertResult) : Except (List Char) Unit :=
  match insert with
  | .ok => .ok ()
  | .err _ => .ok ()

/-- **C6** (counterexample): a non-duplicate persistence failure
("connection timeout") does not propagate from the V2 save routine — it
returns normally, where the claim demands a raised exception. -/
theorem C6_counterexample :
    isDuplicateKeyError "connection timeout".data = false ∧
    saveSignalToDbV2 (.err "connection timeout".data) = .ok () := by
  constructor
  · decide
  · rfl

/-- **C6** (amended): in the V1 service a duplicate-key insert failure is
swallowed and any other insert failure propagates as an exception; the V2
service swallows every insert failure (it logs and returns normally). -/
theorem C6_amended :
    (∀ msg, isDuplicateKeyError msg = true → saveSignalToDb (.err msg) = .ok ()) ∧
    (∀ msg, isDuplicateKeyError msg = false → saveSignalToDb (.err msg) = .error msg) ∧
    saveSignalToDb .ok = .ok () ∧
    (∀ r, saveSignalToDbV2 r = .ok ()) := by
  refine ⟨fun msg h => ?_, fun msg h => ?_, rfl, fun r => ?_⟩
  · simp [saveSignalToDb, h]
  · simp [saveSignalToDb, h]
  · cases r <;> rfl

/-- Witness for C6: a duplicate-key message is swallowed, a plain
connection error propagates. -/
theorem C6_witness :
    saveSignalToDb (.err "E11000 duplicate key error collection: signals".data) = .ok () ∧
    saveSignalToDb (.err "connection refused".data) =
      .error "connection refused".data :=
  ⟨C6_amended.1 _ (by decide), C6_amended.2.1 _ (by decide)⟩

/-! ## Price resolution fallback chain (V1 `_get_current_price`)

The environment carries, per symbol, the prices of the ticks seen in the
recent window (time-ordered) and the closes of the rolling 5-minute
candle history (`self.price_data`, oldest first). The chain: recent ticks
for the symbol; for a futures symbol, recent index ticks; the symbol's
latest candle close; for a futures symbol, the index's latest candle
close; otherwise `None`. (V2's `_get_current_price` is the same chain
with no candle history at all, i.e. steps 3 and 4 over empty lists.) -/

structure PriceEnv where
  niftyIndex : String
  niftyFutures : List String
  recentTicks : String → List ℚ
  candleCloses : String → List ℚ

def getCurrentPrice (env : PriceEnv) (symbol : String) : Option ℚ :=
  if env.recentTicks symbol ≠ [] then (env.recentTicks symbol).getLast?
  else if symbol ∈ env.niftyFutures ∧ env.recentTicks env.niftyIndex ≠ [] then
    (env.recentTicks env.niftyIndex).getLast?
  else if env.candleCloses symbol ≠ [] then (env.candleCloses symbol).getLast?
  else if symbol ∈ env.niftyFutures ∧ env.candleCloses env.niftyIndex ≠ [] then
    (env.candleCloses env.niftyIndex).getLast?
  else none

/-- **C7**: the fallback order — most recent tick for the symbol; else,
for the futures symbol, most recent index tick; else the symbol's latest
candle close; else, for futures, the index's latest candle close — and
the result is `none` exactly when every applicable source is empty. -/
theorem C7 (env : PriceEnv) (symbol : String) :
    (getCurrentPrice env symbol = none ↔
      env.recentTicks symbol = [] ∧
      (symbol ∈ env.niftyFutures → env.recentTicks env.niftyIndex = []) ∧
      env.candleCloses symbol = [] ∧
      (symbol ∈ env.niftyFutures → env.candleCloses env.niftyIndex = [])) ∧
    (env.recentTicks symbol ≠ [] →
      getCurrentPrice env symbol = (env.recentTicks symbol).getLast?) ∧
    (env.recentTicks symbol = [] → symbol ∈ env.niftyFutures →
      env.recentTicks env.niftyIndex ≠ [] →
      getCurrentPrice env symbol = (env.recentTicks env.niftyIndex).getLast?) ∧
    (env.recentTicks symbol = [] →
      (symbol ∈ env.niftyFutures → env.recentTicks env.niftyIndex = []) →
      env.candleCloses symbol ≠ [] →
      getCurrentPrice env symbol = (env.candleCloses symbol).getLast?) ∧
    (env.recentTicks symbol = [] →
      (symbol ∈ env.niftyFutures → env.recentTicks env.niftyIndex = []) →
      env.candleCloses symbol = [] → symbol ∈ env.niftyFutures →
      env.candleCloses env.niftyIndex ≠ [] →
      getCurrentPrice env symbol = (env.candleCloses env.niftyIndex).getLast?) := by
  unfold getCurrentPrice
  refine ⟨?_, ?_, ?_, ?_, ?_⟩
  · split_ifs with h1 h2 h3 h4 <;>
      simp_all [List.getLast?_eq_none_iff]
  · intro h
    rw [if_pos h]
  · intro h1 h2 h3
    rw [if_neg (by simp [h1]), if_pos ⟨h2, h3⟩]
  · intro h1 h2 h3
    rw [if_neg (by simp [h1]), if_neg (by rintro ⟨a, b⟩; exact b (h2 a)), if_pos h3]
  · intro h1 h2 h3 h4 h5
    rw [if_neg (by simp [h1]), if_neg (by rintro ⟨a, b⟩; exact b (h2 a)),
      if_neg (by simp [h3]), if_pos ⟨h4, h5⟩]

/-- Witness for C7: a futures symbol with no own ticks resolves to the
index's most recent tick. -/
theorem C7_witness :
    getCurrentPrice
      ⟨"NIFTY", ["NIFTYFUT"],
        fun s => if s = "NIFTY" then [100, 101] else [], fun _ => []⟩
      "NIFTYFUT" = ([(100 : ℚ), 101]).getLast? :=
  (C7 ⟨"NIFTY", ["NIFTYFUT"],
      fun s => if s = "NIFTY" then [100, 101] else [], fun _ => []⟩
    "NIFTYFUT").2.2.1 (by simp) (by simp) (by simp)

/-! ## Candle aggregation (V1 `_get_5min_candle_data`)

Ticks for the symbol in `[window_start, window_end)` are fetched in
`received_at` order; if the list is empty and the symbol is a futures
contract, the index's ticks are fetched instead; an empty result yields
`None`, otherwise the OHLCV candle. `volume` per tick is
`doc.get('volume', 0) or 0` (absent and zero both map to 0). -/

/-- A tick row as the aggregator reads it: price and optional volume. -/
structure RawTick where
  price : ℚ
  volume : Option ℤ
deriving DecidableEq

/-- The candle dictionary built by `_get_5min_candle_data` (`open` is
`openPrice` here, `open` being reserved in Lean). -/
structure Candle where
  openPrice : ℚ
  high : ℚ
  low : ℚ
  close : ℚ
  volume : ℤ
  tickCount : ℕ
deriving DecidableEq

structure CandleEnv where
  niftyIndex : String
  niftyFutures : List String
  ticksInWindow : String → List RawTick

/-- The tick list actually aggregated: the symbol's ticks, or the index's
ticks when the symbol is a futures contract with none of its own. -/
def effectiveTicks (env : CandleEnv) (symbol : String) : List RawTick :=
  if env.ticksInWindow symbol = [] ∧ symbol ∈ env.niftyFutures then
    env.ticksInWindow env.niftyIndex
  else env.ticksInWindow symbol

def get5minCandleData (env : CandleEnv) (symbol : String) : Option Candle :=
  match effectiveTicks env symbol with
  | [] => none
  | t :: ts =>
      some
        { openPrice := t.price
          high := (ts.map RawTick.price).foldl max t.price
          low := (ts.map RawTick.price).foldl min t.price
          close := ((t :: ts).map RawTick.price).getLast?.getD t.price
          volume := ((t :: ts).map fun tk => tk.volume.getD 0).sum
          tickCount := (t :: ts).length }

theorem foldl_max_mem (l : List ℚ) : ∀ a : ℚ, l.foldl max a ∈ a :: l := by
  induction l with
  | nil => intro a; simp
  | cons x xs ih =>
      intro a
      have h := ih (max a x)
      rcases max_choice a x with hm | hm <;> rw [hm] at h <;>
        simp only [List.foldl_cons, hm] <;> rcases List.mem_cons.mp h with h' | h' <;>
        simp [h']

theorem le_foldl_max (l : List ℚ) :
    ∀ a : ℚ, a ≤ l.foldl max a ∧ ∀ p ∈ l, p ≤ l.foldl max a := by
  induction l with
  | nil => intro a; simp
  | cons x xs ih =>
      intro a
      obtain ⟨h1, h2⟩ := ih (max a x)
      refine ⟨le_trans (le_max_left a x) h1, fun p hp => ?_⟩
      rcases List.mem_cons.mp hp with h' | h'
      · subst h'; exact le_trans (le_max_right a p) h1
      · exact h2 p h'

theorem foldl_min_mem (l : List ℚ) : ∀ a : ℚ, l.foldl min a ∈ a :: l := by
  induction l with
  | nil => intro a; simp
  | cons x xs ih =>
      intro a
      have h := ih (min a x)
      rcases min_choice a x with hm | hm <;> rw [hm] at h <;>
        simp only [List.foldl_cons, hm] <;> rcases List.mem_cons.mp h with h' | h' <;>
        simp [h']

theorem foldl_min_le (l : List ℚ) :
    ∀ a : ℚ, l.foldl min a ≤ a ∧ ∀ p ∈ l, l.foldl min a ≤ p := by
  induction l with
  | nil => intro a; simp
  | cons x xs ih =>
      intro a
      obtain ⟨h1, h2⟩ := ih (min a x)
      refine ⟨le_trans h1 (min_le_left a x), fun p hp => ?_⟩
      rcases List.mem_cons.mp hp with h' | h'
      · subst h'; exact le_trans h1 (min_le_right a p)
      · exact h2 p h'

/-- **C8**: aggregation returns `none` exactly when the symbol has no
ticks in the window and (for a futures symbol) neither has the index
proxy; otherwise open is the first tick price, close the last, high/low
are attained extrema of all tick prices, volume the sum of per-tick
volumes (0 when absent) and tick_count the number of ticks; and a futures
symbol with no own ticks is aggregated from the index's ticks. -/
theorem C8 (env : CandleEnv) (symbol : String) :
    (get5minCandleData env symbol = none ↔
      env.ticksInWindow symbol = [] ∧
      (symbol ∈ env.niftyFutures → env.ticksInWindow env.niftyIndex = [])) ∧
    (∀ c, get5minCandleData env symbol = some c →
      ((effectiveTicks env symbol).map RawTick.price).head? = some c.openPrice ∧
      ((effectiveTicks env symbol).map RawTick.price).getLast? = some c.close ∧
      c.high ∈ (effectiveTicks env symbol).map RawTick.price ∧
      (∀ p ∈ (effectiveTicks env symbol).map RawTick.price, p ≤ c.high) ∧
      c.low ∈ (effectiveTicks env symbol).map RawTick.price ∧
      (∀ p ∈ (effectiveTicks env symbol).map RawTick.price, c.low ≤ p) ∧
      c.volume = ((effectiveTicks env symbol).map fun tk => tk.volume.getD 0).sum ∧
      c.tickCount = (effectiveTicks env symbol).length) ∧
    (symbol ∈ env.niftyFutures → env.ticksInWindow symbol = [] →
      effectiveTicks env symbol = env.ticksInWindow env.niftyIndex) := by
  refine ⟨?_, ?_, fun hf he => by rw [effectiveTicks, if_pos ⟨he, hf⟩]⟩
  · have hnone : get5minCandleData env symbol = none ↔ effectiveTicks env symbol = [] := by
      unfold get5minCandleData
      cases effectiveTicks env symbol <;> simp
    rw [hnone]
    unfold effectiveTicks
    split_ifs with h
    · obtain ⟨he, hf⟩ := h
      simp only [he, true_and]
      constructor
      · intro hidx
        exact fun _ => hidx
      · intro himp
        exact himp hf
    · constructor
      · intro he
        refine ⟨he, fun hf => absurd ⟨he, hf⟩ h⟩
      · exact fun hh => hh.1
  · intro c hc
    unfold get5minCandleData at hc
    cases he : effectiveTicks env symbol with
    | nil => rw [he] at hc; exact absurd hc (by simp)
    | cons t ts =>
        rw [he] at hc
        simp only [Option.some.injEq] at hc
        subst hc
        simp only [List.map_cons]
        refine ⟨by simp, ?_, ?_, ?_, ?_, ?_, by simp, by simp⟩
        · cases hg : (t.price :: ts.map RawTick.price).getLast? with
          | none => simp [List.getLast?_eq_none_iff] at hg
          | some x => rfl
        · have h := foldl_max_mem (ts.map RawTick.price) t.price
          simpa using h
        · intro p hp
          rcases List.mem_cons.mp hp with h' | h'
          · subst h'; exact (le_foldl_max (ts.map RawTick.price) t.price).1
          · exact (le_foldl_max (ts.map RawTick.price) t.price).2 p h'
        · have h := foldl_min_mem (ts.map RawTick.price) t.price
          simpa using h
        · intro p hp
          rcases List.mem_cons.mp hp with h' | h'
          · subst h'; exact (foldl_min_le (ts.map RawTick.price) t.price).1
          · exact (foldl_min_le (ts.map RawTick.price) t.price).2 p h'

/-- Witness for C8: a futures symbol with no ticks in the window is
aggregated from two index ticks into an OHLCV candle. -/
theorem C8_witness :
    effectiveTicks
      ⟨"NIFTY", ["NIFTYFUT"],
        fun s => if s = "NIFTY" then [⟨100, none⟩, ⟨102, some 5⟩] else []⟩
      "NIFTYFUT" =
      [⟨100, none⟩, ⟨102, some 5⟩] := by
  have h :=
    (C8 ⟨"NIFTY", ["NIFTYFUT"],
        fun s => if s = "NIFTY" then [⟨100, none⟩, ⟨102, some 5⟩] else []⟩
      "NIFTYFUT").2.2 (by simp) (by simp)
  simpa using h

/-! ## Signal generation and duplicate prevention (V1 `_generate_signal`)

The service keeps an in-memory dict `self.active_signals` and the
`signals` collection. `_generate_signal` first scans the in-memory
signals for one with the same `(session_name, signal_type)`, then queries
the collection with `find_one({'session_name': ..., 'signal_type': ...})`
(any status); on either hit it aborts before any side-effecting
computation. Otherwise it builds the signal with status ACTIVE, registers
it in memory and inserts it into the collection. `_deactivate_signal`
removes a signal from memory and marks its row REPLACED;
`_cleanup_old_signals` removes expired ids from memory and marks their
ACTIVE rows EXPIRED. -/

/-- Signal statuses that occur in the store
(`app/models/signal.py` plus the REPLACED status written by
`_deactivate_signal`). -/
inductive SignalStatus
  | ACTIVE
  | COMPLETED
  | CANCELLED
  | EXPIRED
  | REPLACED
deriving DecidableEq, Repr

/-- The fields of a stored signal relevant to duplicate prevention. -/
structure SignalRec where
  id : String
  sessionName : String
  signalType : SignalType
  status : SignalStatus
deriving DecidableEq

/-- In-memory signal dict (as its list of values) plus the `signals`
collection. -/
structure SignalStoreState where
  activeSignals : List SignalRec
  db : List SignalRec
deriving DecidableEq

def pairMatches (name : String) (ty : SignalType) (s : SignalRec) : Bool :=
  decide (s.sessionName = name ∧ s.signalType = ty)

def activeMatches (name : String) (ty : SignalType) (s : SignalRec) : Bool :=
  decide (s.sessionName = name ∧ s.signalType = ty ∧ s.status = .ACTIVE)

/-- The duplicate lookup keyed by `(session.name, signal_type)` — used
both for the in-memory scan and for the persistence `find_one`. -/
def hasPair (l : List SignalRec) (name : String) (ty : SignalType) : Bool :=
  l.any (pairMatches name ty)

def pairCount (l : List SignalRec) (name : String) (ty : SignalType) : ℕ :=
  l.countP (pairMatches name ty)

def activeCount (l : List SignalRec) (name : String) (ty : SignalType) : ℕ :=
  l.countP (activeMatches name ty)

/-- V1 `_generate_signal`: abort (returning `None`, no state change) on an
in-memory or persisted record with the same `(session_name, signal_type)`;
otherwise create the ACTIVE signal, register it in memory and insert it. -/
def generateSignal (st : SignalStoreState) (name : String) (ty : SignalType)
    (newId : String) : Option SignalRec × SignalStoreState :=
  if hasPair st.activeSignals name ty then (none, st)
  else if hasPair st.db name ty then (none, st)
  else
    let sig : SignalRec := ⟨newId, name, ty, .ACTIVE⟩
    (some sig, ⟨st.activeSignals ++ [sig], st.db ++ [sig]⟩)

/-- `_deactivate_signal`: drop the id from memory, mark its row REPLACED. -/
def deactivateSignal (st : SignalStoreState) (sid : String) : SignalStoreState :=
  ⟨st.activeSignals.filter fun s => !decide (s.id = sid),
   st.db.map fun s => if s.id = sid then { s with status := .REPLACED } else s⟩

/-- `_cleanup_old_signals`: drop the expired ids from memory, mark their
still-ACTIVE rows EXPIRED. -/
def expireSignals (st : SignalStoreState) (ids : List String) : SignalStoreState :=
  ⟨st.activeSignals.filter fun s => !decide (s.id ∈ ids),
   st.db.map fun s =>
     if s.id ∈ ids ∧ s.status = .ACTIVE then { s with status := .EXPIRED } else s⟩

/-- States reachable by the monitoring loop's signal operations, from the
empty start-of-day state. -/
inductive Reachable : SignalStoreState → Prop
  | init : Reachable ⟨[], []⟩
  | generate (st : SignalStoreState) (name : String) (ty : SignalType) (newId : String) :
      Reachable st → Reachable (generateSignal st name ty newId).2
  | deactivate (st : SignalStoreState) (sid : String) :
      Reachable st → Reachable (deactivateSignal st sid)
  | expire (st : SignalStoreState) (ids : List String) :
      Reachable st → Reachable (expireSignals st ids)

/-- The strengthened invariant: at most one record — of any status — per
`(session_name, signal_type)` pair, in memory and in the collection. -/
def StoreInv (st : SignalStoreState) : Prop :=
  ∀ name ty, pairCount st.activeSignals name ty ≤ 1 ∧ pairCount st.db name ty ≤ 1

theorem hasPair_false_count (l : List SignalRec) (name : String) (ty : SignalType)
    (h : hasPair l name ty = false) : pairCount l name ty = 0 := by
  rw [pairCount, List.countP_eq_zero]
  intro a ha
  have := List.any_eq_false.mp h a ha
  simpa using this

theorem pairCount_append_single (l : List SignalRec) (sig : SignalRec)
    (name : String) (ty : SignalType) :
    pairCount (l ++ [sig]) name ty =
      pairCount l name ty + if pairMatches name ty sig then 1 else 0 := by
  simp [pairCount, List.countP_append, List.countP_cons]

theorem pairCount_filter_le (l : List SignalRec) (q : SignalRec → Bool)
    (name : String) (ty : SignalType) :
    pairCount (l.filter q) name ty ≤ pairCount l name ty :=
  (List.filter_sublist l).countP_le _

theorem pairCount_map_keepPair (l : List SignalRec) (f : SignalRec → SignalRec)
    (hf : ∀ s, (f s).sessionName = s.sessionName ∧ (f s).signalType = s.signalType)
    (name : String) (ty : SignalType) :
    pairCount (l.map f) name ty = pairCount l name ty := by
  rw [pairCount, List.countP_map]
  apply List.countP_congr
  intro s _
  simp [Function.comp, pairMatches, (hf s).1, (hf s).2]

theorem storeInv_generate (st : SignalStoreState) (h : StoreInv st)
    (name : String) (ty : SignalType) (newId : String) :
    StoreInv (generateSignal st name ty newId).2 := by
  unfold generateSignal
  split_ifs with h1 h2
  · exact h
  · exact h
  · intro n t
    have hmem := hasPair_false_count st.activeSignals name ty (by simpa using h1)
    have hdb := hasPair_false_count st.db name ty (by simpa using h2)
    obtain ⟨hm, hd⟩ := h n t
    constructor
    · rw [pairCount_append_single]
      split_ifs with hp
      · obtain ⟨h₁, h₂⟩ : name = n ∧ ty = t := of_decide_eq_true hp
        subst h₁
        subst h₂
        omega
      · omega
    · rw [pairCount_append_single]
      split_ifs with hp
      · obtain ⟨h₁, h₂⟩ : name = n ∧ ty = t := of_decide_eq_true hp
        subst h₁
        subst h₂
        omega
      · omega

theorem storeInv_deactivate (st : SignalStoreState) (h : StoreInv st) (sid : String) :
    StoreInv (deactivateSignal st sid) := by
  intro n t
  obtain ⟨hm, hd⟩ := h n t
  refine ⟨le_trans (pairCount_filter_le _ _ _ _) hm, ?_⟩
  unfold deactivateSignal
  rw [pairCount_map_keepPair]
  · exact hd
  · intro s
    split_ifs <;> simp

theorem storeInv_expire (st : SignalStoreState) (h : StoreInv st) (ids : List String) :
    StoreInv (expireSignals st ids) := by
  intro n t
  obtain ⟨hm, hd⟩ := h n t
  refine ⟨le_trans (pairCount_filter_le _ _ _ _) hm, ?_⟩
  unfold expireSignals
  rw [pairCount_map_keepPair]
  · exact hd
  · intro s
    split_ifs <;> simp

theorem reachable_storeInv (st : SignalStoreState) (h : Reachable st) : StoreInv st := by
  induction h with
  | init => intro n t; simp [pairCount]
  | generate st name ty newId _ ih => exact storeInv_generate st ih name ty newId
  | deactivate st sid _ ih => exact storeInv_deactivate st ih sid
  | expire st ids _ ih => exact storeInv_expire st ih ids

/-! ### V2 `_generate_breakout_signal` (signal_detection_service_v2.py)

The V2 service is stateless: it keeps no in-memory active-signal set.
Its only duplicate check is
`find_one({'session_name': ..., 'signal_type': ..., 'status': 'ACTIVE'})`
against the `signals` collection — the lookup filters on status ACTIVE,
so a matching record with any other status does not cause an abort.
On no hit it builds the ACTIVE signal and inserts it. -/

/-- The V2 duplicate lookup: a record with the same
`(session_name, signal_type)` *and* status ACTIVE. -/
def hasActivePair (l : List SignalRec) (name : String) (ty : SignalType) : Bool :=
  l.any (activeMatches name ty)

/-- V2 `_generate_breakout_signal`, reduced to its effect on the
`signals` collection: abort returning `None` on an ACTIVE record with
the same pair, otherwise create and insert the ACTIVE signal. -/
def generateBreakoutSignalV2 (db : List SignalRec) (name : String) (ty : SignalType)
    (newId : String) : Option SignalRec × List SignalRec :=
  if hasActivePair db name ty then (none, db)
  else
    let sig : SignalRec := ⟨newId, name, ty, .ACTIVE⟩
    (some sig, db ++ [sig])

/-- Collection states reachable under the V2 service: inserts by the
generator, plus status updates that move rows away from ACTIVE
(expiry/replacement); no step ever sets a row to ACTIVE. -/
inductive ReachableV2 : List SignalRec → Prop
  | init : ReachableV2 []
  | generate (db : List SignalRec) (name : String) (ty : SignalType) (newId : String) :
      ReachableV2 db → ReachableV2 (generateBreakoutSignalV2 db name ty newId).2
  | update (db : List SignalRec) (sid : String) (st : SignalStatus) :
      st ≠ .ACTIVE → ReachableV2 db →
      ReachableV2 (db.map fun s => if s.id = sid then { s with status := st } else s)

theorem hasActivePair_false_count (l : List SignalRec) (name : String) (ty : SignalType)
    (h : hasActivePair l name ty = false) : activeCount l name ty = 0 := by
  rw [activeCount, List.countP_eq_zero]
  intro a ha
  have := List.any_eq_false.mp h a ha
  simpa using this

theorem activeCount_append_one (l : List SignalRec) (sig : SignalRec)
    (name : String) (ty : SignalType) :
    activeCount (l ++ [sig]) name ty =
      activeCount l name ty + if activeMatches name ty sig then 1 else 0 := by
  simp [activeCount, List.countP_append, List.countP_cons]

theorem activeCount_update_le (db : List SignalRec) (sid : String) (st : SignalStatus)
    (hst : st ≠ .ACTIVE) (name : String) (ty : SignalType) :
    activeCount (db.map fun s => if s.id = sid then { s with status := st } else s)
        name ty ≤ activeCount db name ty := by
  rw [activeCount, List.countP_map]
  apply List.countP_mono_left
  intro s _ hs
  simp only [Function.comp] at hs
  split_ifs at hs with hid
  · exact absurd (of_decide_eq_true hs).2.2 hst
  · exact hs

theorem activeInvV2_generate (db : List SignalRec)
    (h : ∀ n t, activeCount db n t ≤ 1)
    (name : String) (ty : SignalType) (newId : String) :
    ∀ n t, activeCount (generateBreakoutSignalV2 db name ty newId).2 n t ≤ 1 := by
  unfold generateBreakoutSignalV2
  split_ifs with h1
  · exact h
  · intro n t
    have hn := h n t
    rw [activeCount_append_one]
    split_ifs with hp
    · obtain ⟨h₁, h₂, -⟩ := of_decide_eq_true hp
      have h₁' : name = n := h₁
      have h₂' : ty = t := h₂
      subst h₁'
      subst h₂'
      have h0 := hasActivePair_false_count db name ty (by simpa using h1)
      omega
    · omega

theorem reachableV2_activeInv (db : List SignalRec) (h : ReachableV2 db) :
    ∀ n t, activeCount db n t ≤ 1 := by
  induction h with
  | init => intro n t; simp [activeCount]
  | generate db name ty newId _ ih => exact activeInvV2_generate db ih name ty newId
  | update db sid st hst _ ih =>
      intro n t
      exact le_trans (activeCount_update_le db sid st hst n t) (ih n t)

/-- **C2** (counterexample): the collection holds an EXPIRED record keyed
("Morning Opening", BUY_CALL) — a matching `(session_name, signal_type)`
record exists — yet the V2 generator does not abort with `None`: its
lookup filters on status ACTIVE, so it generates a new signal. -/
theorem C2_counterexample :
    hasPair [⟨"sig1", "Morning Opening", SignalType.BUY_CALL, .EXPIRED⟩]
      "Morning Opening" SignalType.BUY_CALL = true ∧
    (generateBreakoutSignalV2
        [⟨"sig1", "Morning Opening", SignalType.BUY_CALL, .EXPIRED⟩]
        "Morning Opening" SignalType.BUY_CALL "sig2").1 =
      some ⟨"sig2", "Morning Opening", SignalType.BUY_CALL, .ACTIVE⟩ := by
  decide

/-- **C2** (amended): in every reachable state there is at most one
ACTIVE signal per `(session_name, signal_type)` pair. The V1 generator
performs its in-memory and persistence duplicate lookups keyed by that
pair (any status) before any side effects and aborts returning `None`
when either matches; the V2 generator has no in-memory lookup and aborts
only when the collection holds a record with that pair *and* status
ACTIVE — a matching non-ACTIVE record does not abort, and the generated
signal is inserted with status ACTIVE. -/
theorem C2_amended (st : SignalStoreState) (h : Reachable st)
    (db : List SignalRec) (hdb : ReachableV2 db) :
    (∀ name ty, activeCount st.activeSignals name ty ≤ 1 ∧
      activeCount st.db name ty ≤ 1) ∧
    (∀ name ty newId,
      hasPair st.activeSignals name ty = true ∨ hasPair st.db name ty = true →
      generateSignal st name ty newId = (none, st)) ∧
    (∀ name ty, activeCount db name ty ≤ 1) ∧
    (∀ name ty newId, hasActivePair db name ty = true →
      generateBreakoutSignalV2 db name ty newId = (none, db)) ∧
    (∀ name ty newId, hasActivePair db name ty = false →
      generateBreakoutSignalV2 db name ty newId =
        (some ⟨newId, name, ty, .ACTIVE⟩, db ++ [⟨newId, name, ty, .ACTIVE⟩])) := by
  have hinv := reachable_storeInv st h
  refine ⟨?_, ?_, reachableV2_activeInv db hdb, ?_, ?_⟩
  · intro name ty
    obtain ⟨hm, hd⟩ := hinv name ty
    have hmono : ∀ l : List SignalRec,
        activeCount l name ty ≤ pairCount l name ty := by
      intro l
      apply List.countP_mono_left
      intro s _ hs
      have := of_decide_eq_true hs
      exact decide_eq_true ⟨this.1, this.2.1⟩
    exact ⟨le_trans (hmono _) hm, le_trans (hmono _) hd⟩
  · intro name ty newId hdup
    unfold generateSignal
    rcases hdup with hdup | hdup
    · rw [if_pos hdup]
    · by_cases hmem : hasPair st.activeSignals name ty
      · rw [if_pos hmem]
      · rw [if_neg hmem, if_pos hdup]
  · intro name ty newId hdup
    unfold generateBreakoutSignalV2
    rw [if_pos hdup]
  · intro name ty newId hdup
    unfold generateBreakoutSignalV2
    rw [if_neg (by simp [hdup])]

/-- Witness for C2: a second V1 attempt for an already-generated pair
aborts with the state unchanged, and a second V2 attempt against a
collection holding the ACTIVE record likewise aborts. -/
theorem C2_witness :
    generateSignal
      (generateSignal ⟨[], []⟩ "Morning Opening" SignalType.BUY_CALL "sig1").2
      "Morning Opening" SignalType.BUY_CALL "sig2" =
      (none, (generateSignal ⟨[], []⟩ "Morning Opening" SignalType.BUY_CALL "sig1").2) ∧
    generateBreakoutSignalV2
      (generateBreakoutSignalV2 [] "Morning Opening" SignalType.BUY_CALL "sig1").2
      "Morning Opening" SignalType.BUY_CALL "sig2" =
      (none, (generateBreakoutSignalV2 [] "Morning Opening" SignalType.BUY_CALL "sig1").2) :=
  ⟨(C2_amended (generateSignal ⟨[], []⟩ "Morning Opening" SignalType.BUY_CALL "sig1").2
      (Reachable.generate ⟨[], []⟩ "Morning Opening" SignalType.BUY_CALL "sig1"
        Reachable.init)
      [] ReachableV2.init).2.1
    "Morning Opening" SignalType.BUY_CALL "sig2" (Or.inl (by decide)),
   (C2_amended ⟨[], []⟩ Reachable.init
      (generateBreakoutSignalV2 [] "Morning Opening" SignalType.BUY_CALL "sig1").2
      (ReachableV2.generate [] "Morning Opening" SignalType.BUY_CALL "sig1"
        ReachableV2.init)).2.2.2.1
    "Morning Opening" SignalType.BUY_CALL "sig2" (by decide)⟩

/-! ## Session state machines

V2 `_process_session_realtime`: a PENDING session becomes ACTIVE once the
current minute-of-day reaches the start boundary; an ACTIVE session
becomes COMPLETED once it passes the end boundary, at which point the
full-window `calculate_session_data` result is written into
`symbols_data`; the function has no other branch (and the monitoring loop
only feeds it PENDING/ACTIVE sessions).

V1 `_check_sessions` per session: when the session is neither active nor
completed and the time is inside the window, it sets `is_active = True`
and then immediately calls `reset_for_day()` (which clears the flags and
data again); when active and past the end it completes
(`_finalize_session` only logs); when active and inside the window it
folds the latest candle of each monitored symbol into the running session
high/low (`_update_session_data`). -/

/-- `app/models/session_state.py` `SessionStatus`. -/
inductive SessionStatus
  | PENDING
  | ACTIVE
  | COMPLETED
deriving DecidableEq, Repr

/-- Position of a status along the forward direction of the lifecycle. -/
def statusOrd : SessionStatus → ℕ
  | .PENDING => 0
  | .ACTIVE => 1
  | .COMPLETED => 2

/-- A V2 session document: its status and per-symbol (high, low)
reference data (`symbols_data`). -/
structure SessionDocV2 where
  status : SessionStatus
  symbolsData : List (String × ℚ × ℚ)
deriving DecidableEq

/-- V2 `_process_session_realtime`. `finalSymbolsData` stands for the
result of `session_state_service.calculate_session_data`, the
full-window aggregation run at the completion transition. -/
def processSessionRealtime (doc : SessionDocV2)
    (startMinutes endMinutes currentMinutes : ℕ)
    (finalSymbolsData : List (String × ℚ × ℚ)) : SessionDocV2 :=
  if doc.status = .PENDING ∧ currentMinutes ≥ startMinutes then
    { doc with status := .ACTIVE }
  else if doc.status = .ACTIVE ∧ currentMinutes > endMinutes then
    { status := .COMPLETED, symbolsData := finalSymbolsData }
  else doc

/-- A sequence of monitoring-loop iterations applied to one V2 session:
each input is (start, end, current) in minutes plus the full-window data
that would be computed at that iteration. -/
def runSessionV2 (doc : SessionDocV2) :
    List (ℕ × ℕ × ℕ × List (String × ℚ × ℚ)) → SessionDocV2
  | [] => doc
  | (sm, em, cm, d) :: rest => runSessionV2 (processSessionRealtime doc sm em cm d) rest

theorem sessionV2_step_mono (doc : SessionDocV2)
    (sm em cm : ℕ) (d : List (String × ℚ × ℚ)) :
    statusOrd doc.status ≤ statusOrd (processSessionRealtime doc sm em cm d).status := by
  unfold processSessionRealtime
  split_ifs with h1 h2
  · rw [h1.1]; simp [statusOrd]
  · rw [h2.1]; simp [statusOrd]
  · exact le_refl _

theorem sessionV2_step_frozen (doc : SessionDocV2)
    (sm em cm : ℕ) (d : List (String × ℚ × ℚ)) (h : doc.status = .COMPLETED) :
    processSessionRealtime doc sm em cm d = doc := by
  unfold processSessionRealtime
  rw [if_neg (by rw [h]; rintro ⟨hp, -⟩; exact absurd hp (by simp)),
    if_neg (by rw [h]; rintro ⟨hp, -⟩; exact absurd hp (by simp))]

theorem sessionV2_step_data (doc : SessionDocV2)
    (sm em cm : ℕ) (d : List (String × ℚ × ℚ))
    (h : (processSessionRealtime doc sm em cm d).symbolsData ≠ doc.symbolsData) :
    doc.status = .ACTIVE := by
  unfold processSessionRealtime at h
  split_ifs at h with h1 h2
  · exact absurd rfl h
  · exact h2.1
  · exact absurd rfl h

theorem runSessionV2_mono (inputs : List (ℕ × ℕ × ℕ × List (String × ℚ × ℚ))) :
    ∀ doc : SessionDocV2,
      statusOrd doc.status ≤ statusOrd (runSessionV2 doc inputs).status := by
  induction inputs with
  | nil => intro doc; exact le_refl _
  | cons i rest ih =>
      intro doc
      obtain ⟨sm, em, cm, d⟩ := i
      exact le_trans (sessionV2_step_mono doc sm em cm d)
        (ih (processSessionRealtime doc sm em cm d))

theorem runSessionV2_frozen (inputs : List (ℕ × ℕ × ℕ × List (String × ℚ × ℚ))) :
    ∀ doc : SessionDocV2, doc.status = .COMPLETED → runSessionV2 doc inputs = doc := by
  induction inputs with
  | nil => intro doc _; rfl
  | cons i rest ih =>
      intro doc h
      obtain ⟨sm, em, cm, d⟩ := i
      show runSessionV2 (processSessionRealtime doc sm em cm d) rest = doc
      rw [sessionV2_step_frozen doc sm em cm d h]
      exact ih doc h

/-- The V1 `TradingSession` mutable state: the two flags and the
per-symbol running (high, low) (`session_data`; `none` before any candle
has been folded in). -/
structure TradingSessionV1 where
  isActive : Bool
  isCompleted : Bool
  sessionData : List (String × Option (ℚ × ℚ))
deriving DecidableEq

/-- The session status the V1 flags encode. -/
def statusV1 (s : TradingSessionV1) : SessionStatus :=
  if s.isCompleted then .COMPLETED else if s.isActive then .ACTIVE else .PENDING

/-- `TradingSession.reset_for_day`. -/
def resetForDay (_s : TradingSessionV1) : TradingSessionV1 := ⟨false, false, []⟩

/-- One symbol's update inside `_update_session_data`: fold the latest
candle's (high, low) into the symbol's running levels. -/
def updateEntry (data : List (String × Option (ℚ × ℚ))) (sym : String)
    (hl : ℚ × ℚ) : List (String × Option (ℚ × ℚ)) :=
  data.map fun e =>
    if e.1 = sym then
      match e.2 with
      | none => (e.1, some hl)
      | some hl₀ => (e.1, some (max hl₀.1 hl.1, min hl₀.2 hl.2))
    else e

/-- `if symbol not in session.session_data: session.session_data[symbol] = {...}`. -/
def ensureEntry (data : List (String × Option (ℚ × ℚ))) (sym : String) :
    List (String × Option (ℚ × ℚ)) :=
  if data.any fun e => decide (e.1 = sym) then data else data ++ [(sym, none)]

/-- `_update_session_data` over the monitored symbols, given each
symbol's latest candle (high, low) when one exists. -/
def updateSessionData (data : List (String × Option (ℚ × ℚ)))
    (symbols : List String) (latestCandle : String → Option (ℚ × ℚ)) :
    List (String × Option (ℚ × ℚ)) :=
  symbols.foldl
    (fun d sym =>
      let d' := ensureEntry d sym
      match latestCandle sym with
      | none => d'
      | some hl => updateEntry d' sym hl)
    data

/-- V1 `_check_sessions`, one session, one monitoring tick. -/
def checkSessionsStep (s : TradingSessionV1)
    (startMinutes endMinutes currentMinutes : ℕ)
    (symbols : List String) (latestCandle : String → Option (ℚ × ℚ)) :
    TradingSessionV1 :=
  let inRange := startMinutes ≤ currentMinutes ∧ currentMinutes ≤ endMinutes
  if ¬s.isActive ∧ ¬s.isCompleted ∧ inRange then
    resetForDay { s with isActive := true }
  else if s.isActive ∧ currentMinutes > endMinutes then
    { s with isActive := false, isCompleted := true }
  else if s.isActive ∧ inRange then
    { s with sessionData := updateSessionData s.sessionData symbols latestCandle }
  else s

/-- States of a V1 session that occur at monitoring-tick boundaries: the
two flags are never both set, and a PENDING session has no accumulated
data (it starts empty and V1's activation branch immediately resets). -/
def WFV1 (s : TradingSessionV1) : Prop :=
  ¬(s.isActive = true ∧ s.isCompleted = true) ∧
  (statusV1 s = .PENDING → s.sessionData = [])

theorem statusOrd_le_two (st : SessionStatus) : statusOrd st ≤ 2 := by
  cases st <;> simp [statusOrd]

/-- **C4**: session status only moves forward along
PENDING → ACTIVE → COMPLETED under both drivers — a COMPLETED session is
left untouched, and along any sequence of V2 monitoring iterations the
status is monotone and COMPLETED is terminal — and the session high/low
data is mutated only by a step that starts from an ACTIVE session. -/
theorem C4 (doc : SessionDocV2) (sm em cm : ℕ)
    (finalData : List (String × ℚ × ℚ))
    (inputs : List (ℕ × ℕ × ℕ × List (String × ℚ × ℚ)))
    (s : TradingSessionV1) (symbols : List String)
    (latestCandle : String → Option (ℚ × ℚ)) (hwf : WFV1 s) :
    (statusOrd doc.status ≤
      statusOrd (processSessionRealtime doc sm em cm finalData).status) ∧
    (doc.status = .COMPLETED → processSessionRealtime doc sm em cm finalData = doc) ∧
    ((processSessionRealtime doc sm em cm finalData).symbolsData ≠ doc.symbolsData →
      doc.status = .ACTIVE) ∧
    (statusOrd doc.status ≤ statusOrd (runSessionV2 doc inputs).status) ∧
    (doc.status = .COMPLETED → runSessionV2 doc inputs = doc) ∧
    (statusOrd (statusV1 s) ≤
      statusOrd (statusV1 (checkSessionsStep s sm em cm symbols latestCandle))) ∧
    (statusV1 s = .COMPLETED → checkSessionsStep s sm em cm symbols latestCandle = s) ∧
    ((checkSessionsStep s sm em cm symbols latestCandle).sessionData ≠ s.sessionData →
      statusV1 s = .ACTIVE) ∧
    WFV1 (checkSessionsStep s sm em cm symbols latestCandle) := by
  obtain ⟨hflags, hpend⟩ := hwf
  refine ⟨sessionV2_step_mono doc sm em cm finalData,
    sessionV2_step_frozen doc sm em cm finalData,
    sessionV2_step_data doc sm em cm finalData,
    runSessionV2_mono inputs doc,
    runSessionV2_frozen inputs doc, ?_, ?_, ?_, ?_⟩
  · unfold checkSessionsStep
    dsimp only
    split_ifs with h1 h2 h3
    · obtain ⟨ha, hc, -⟩ := h1
      simp only [Bool.not_eq_true] at ha hc
      simp [statusV1, resetForDay, ha, hc]
    · exact le_trans (statusOrd_le_two _) (by simp [statusV1, statusOrd])
    · exact le_refl _
    · exact le_refl _
  · intro hc
    have hcomp : s.isCompleted = true := by
      unfold statusV1 at hc
      by_cases h : s.isCompleted
      · exact h
      · rw [if_neg h] at hc
        split_ifs at hc
    have hact : s.isActive = false := by
      cases hA : s.isActive
      · rfl
      · exact absurd ⟨hA, hcomp⟩ hflags
    unfold checkSessionsStep
    dsimp only
    rw [if_neg (by rw [hcomp]; rintro ⟨-, hx, -⟩; simp at hx),
      if_neg (by rw [hact]; rintro ⟨hx, -⟩; simp at hx),
      if_neg (by rw [hact]; rintro ⟨hx, -⟩; simp at hx)]
  · unfold checkSessionsStep
    dsimp only
    split_ifs with h1 h2 h3
    · intro hne
      obtain ⟨ha, hc, -⟩ := h1
      simp only [Bool.not_eq_true] at ha hc
      have : statusV1 s = .PENDING := by simp [statusV1, ha, hc]
      rw [hpend this] at hne
      exact absurd rfl hne
    · intro hne
      exact absurd rfl hne
    · intro _
      obtain ⟨ha, -⟩ := h3
      have hc : s.isCompleted = false := by
        cases hC : s.isCompleted
        · rfl
        · exact absurd ⟨ha, hC⟩ hflags
      simp [statusV1, ha, hc]
    · intro hne
      exact absurd rfl hne
  · unfold checkSessionsStep
    dsimp only
    split_ifs with h1 h2 h3
    · exact ⟨by simp [resetForDay], fun _ => rfl⟩
    · exact ⟨by simp, by simp [statusV1]⟩
    · obtain ⟨ha, -⟩ := h3
      have hc : s.isCompleted = false := by
        cases hC : s.isCompleted
        · rfl
        · exact absurd ⟨ha, hC⟩ hflags
      exact ⟨by simp [hc], by simp [statusV1, ha, hc]⟩
    · exact ⟨hflags, hpend⟩

/-- Witness for C4: a PENDING V2 session at minute 571 of a 570–575
window, one monitoring input, and an empty PENDING V1 session. -/
theorem C4_witness :
    (statusOrd (⟨.PENDING, []⟩ : SessionDocV2).status ≤
      statusOrd (processSessionRealtime ⟨.PENDING, []⟩ 570 575 571
        [("NIFTY", 100, 90)]).status) ∧
    ((⟨.PENDING, []⟩ : SessionDocV2).status = .COMPLETED →
      processSessionRealtime ⟨.PENDING, []⟩ 570 575 571 [("NIFTY", 100, 90)] =
        ⟨.PENDING, []⟩) ∧
    ((processSessionRealtime ⟨.PENDING, []⟩ 570 575 571
        [("NIFTY", 100, 90)]).symbolsData ≠ (⟨.PENDING, []⟩ : SessionDocV2).symbolsData →
      (⟨.PENDING, []⟩ : SessionDocV2).status = .ACTIVE) ∧
    (statusOrd (⟨.PENDING, []⟩ : SessionDocV2).status ≤
      statusOrd (runSessionV2 ⟨.PENDING, []⟩
        [(570, 575, 580, [("NIFTY", 100, 90)])]).status) ∧
    ((⟨.PENDING, []⟩ : SessionDocV2).status = .COMPLETED →
      runSessionV2 ⟨.PENDING, []⟩ [(570, 575, 580, [("NIFTY", 100, 90)])] =
        ⟨.PENDING, []⟩) ∧
    (statusOrd (statusV1 ⟨false, false, []⟩) ≤
      statusOrd (statusV1 (checkSessionsStep ⟨false, false, []⟩ 570 575 571
        ["NIFTY"] fun _ => none))) ∧
    (statusV1 ⟨false, false, []⟩ = .COMPLETED →
      checkSessionsStep ⟨false, false, []⟩ 570 575 571 ["NIFTY"] (fun _ => none) =
        ⟨false, false, []⟩) ∧
    ((checkSessionsStep ⟨false, false, []⟩ 570 575 571 ["NIFTY"]
        (fun _ => none)).sessionData ≠
      (⟨false, false, []⟩ : TradingSessionV1).sessionData →
      statusV1 ⟨false, false, []⟩ = .ACTIVE) ∧
    WFV1 (checkSessionsStep ⟨false, false, []⟩ 570 575 571 ["NIFTY"] fun _ => none) :=
  C4 ⟨.PENDING, []⟩ 570 575 571 [("NIFTY", 100, 90)]
    [(570, 575, 580, [("NIFTY", 100, 90)])]
    ⟨false, false, []⟩ ["NIFTY"] (fun _ => none)
    ⟨by simp, fun _ => rfl⟩

end TraderX
